import Mathlib

/-!
Verification of the blockyWorld camera controller and scene composer
(src/blockyWorld/main.js).

The camera state lives in the globals `eye`, `forward`, `up`, `at`
(main.js lines 118-121) and is mutated by the keydown handler
(lines 151-186) and the mousemove handler (lines 195-204), both of which
go through `move` (lines 141-149) for translations.  The scene composer
`drawScene` (lines 215-243) emits one sky draw, one ground draw, then one
draw per stacked cube of the height grid `map` (lines 207-212).  Each
`Cube` uploads a fixed 4-vertex array (lines 62-67) and draws it as a
single 4-vertex triangle strip (lines 84-89).

The 3-vector and 4x4-matrix operations (`Vector3.normalize`,
`Vector3.cross`, `Matrix4.setRotate` + `multiplyVector3`) come from the
transform-utility library, which is not part of the repository's staged
sources; those operations are modelled from the spec's description of the
transform utilities ("cross/normalize operations", rotation about the
world-up axis, standard Euclidean semantics), with real numbers standing
in for the floating-point components.
-/

namespace BlockyWorld

/-- Modelled from the spec: the transform library's `Vector3`, "three
floating-point components", embedded with real components. -/
@[ext]
structure Vector3 where
  x : ℝ
  y : ℝ
  z : ℝ

noncomputable section

instance : Zero Vector3 := ⟨⟨0, 0, 0⟩⟩

noncomputable instance : Add Vector3 :=
  ⟨fun a b => ⟨a.x + b.x, a.y + b.y, a.z + b.z⟩⟩

noncomputable instance : Sub Vector3 :=
  ⟨fun a b => ⟨a.x - b.x, a.y - b.y, a.z - b.z⟩⟩

noncomputable instance : SMul ℝ Vector3 :=
  ⟨fun c v => ⟨c * v.x, c * v.y, c * v.z⟩⟩

/-- Modelled from the spec: the Euclidean dot product of the transform
library's 3-vectors. -/
def Vector3.dot (a b : Vector3) : ℝ :=
  a.x * b.x + a.y * b.y + a.z * b.z

/-- Modelled from the spec: `Vector3.cross`, the standard cross product
used by the strafing branches of the keydown handler. -/
def Vector3.cross (a b : Vector3) : Vector3 :=
  ⟨a.y * b.z - a.z * b.y, a.z * b.x - a.x * b.z, a.x * b.y - a.y * b.x⟩

/-- Squared Euclidean norm of a `Vector3`. -/
def Vector3.normSq (v : Vector3) : ℝ :=
  v.x ^ 2 + v.y ^ 2 + v.z ^ 2

/-- Euclidean norm of a `Vector3` (the library's `Math.sqrt(c*c+d*d+e*e)`). -/
def Vector3.norm (v : Vector3) : ℝ :=
  Real.sqrt v.normSq

/-- Modelled from the spec: the library's `Vector3.normalize`, which
leaves the zero vector at zero and otherwise divides by the norm. -/
def Vector3.normalize (v : Vector3) : Vector3 :=
  if v.norm = 0 then 0 else v.norm⁻¹ • v

/-- Modelled from the spec: rotation of a vector about the world-up axis
(0,1,0) by `angleDeg` degrees — the library's
`Matrix4.setRotate(angleDeg, 0, 1, 0)` followed by `multiplyVector3`.
The handlers always pass `...up.elements` for the axis, and `up` is the
constant world +Y vector (main.js line 120, never reassigned). -/
def rotateAboutUp (angleDeg : ℝ) (v : Vector3) : Vector3 :=
  ⟨Real.cos (angleDeg * Real.pi / 180) * v.x + Real.sin (angleDeg * Real.pi / 180) * v.z,
   v.y,
   -Real.sin (angleDeg * Real.pi / 180) * v.x + Real.cos (angleDeg * Real.pi / 180) * v.z⟩

/-- Axis-angle (Rodrigues) rotation of `v` about the axis `u` by `t`
radians, written from the spec's words ("rotates `forward` about
world-up by `-deltaX * sensitivity`" radians, "5 degrees" for the yaw
keys); used on the specification side of the rotation claims. -/
def rotAboutAxis (u : Vector3) (t : ℝ) (v : Vector3) : Vector3 :=
  Real.cos t • v + Real.sin t • Vector3.cross u v +
    ((1 - Real.cos t) * Vector3.dot u v) • u

/-- The camera globals of main.js lines 118-121: `eye`, `forward`, `up`
and `at` (the latter spelled `at'` since `at` is reserved in Lean). -/
structure CamState where
  eye : Vector3
  forward : Vector3
  up : Vector3
  at' : Vector3

/-- The world-up axis, the constant value of the global `up`. -/
def worldUp : Vector3 := ⟨0, 1, 0⟩

/-- The initial camera state of main.js lines 118-121:
eye (0,2,-5), forward = normalize (0,0,1), up (0,1,0), at (0,2,0). -/
def initState : CamState :=
  { eye := ⟨0, 2, -5⟩
    forward := Vector3.normalize ⟨0, 0, 1⟩
    up := ⟨0, 1, 0⟩
    at' := ⟨0, 2, 0⟩ }

/-- The effects a handler performs besides mutating the camera state:
rebuilding the view matrix (`updateViewMatrix()`) and redrawing the
scene (`drawScene()`). -/
inductive Eff where
  | updateView : Eff
  | drawScene : Eff
deriving DecidableEq

/-- `move(dirVec)` of main.js lines 141-149: normalize the direction,
scale by 0.3, and add the result to both `eye` and `at`. -/
def move (dirVec : Vector3) (s : CamState) : CamState :=
  let moveVec := (0.3 : ℝ) • dirVec.normalize
  { s with eye := s.eye + moveVec, at' := s.at' + moveVec }

/-- `move` together with the effects it performs: `move` ends in
`updateViewMatrix(); drawScene()` (lines 147-148). -/
def moveE (dirVec : Vector3) (s : CamState) : CamState × List Eff :=
  (move dirVec s, [Eff.updateView, Eff.drawScene])

/-- The strafing direction computed by the KeyA/KeyD branches
(lines 156-171): `viewDir = normalize(at - eye)`,
`right = normalize(cross(viewDir, up))`. -/
def strafeRight (s : CamState) : Vector3 :=
  (Vector3.cross ((s.at' - s.eye).normalize) s.up).normalize

/-- The KeyQ/KeyE branches (lines 172-179): rotate `forward` about the
up axis by `angleDeg` degrees, renormalize, and set `at = eye + forward`. -/
def yawKey (angleDeg : ℝ) (s : CamState) : CamState :=
  let f := (rotateAboutUp angleDeg s.forward).normalize
  { s with forward := f, at' := s.eye + f }

/-- The switch of the keydown handler (main.js lines 153-182), with the
effects each branch performs; an unrecognized code falls through with no
mutation and no branch effects. -/
def keydownBranch (code : String) (s : CamState) : CamState × List Eff :=
  if code = "KeyW" then moveE s.forward s
  else if code = "KeyS" then moveE ((-2 : ℝ) • s.forward) s
  else if code = "KeyA" then moveE ((-1 : ℝ) • strafeRight s) s
  else if code = "KeyD" then moveE (strafeRight s) s
  else if code = "KeyQ" then (yawKey (-5) s, [])
  else if code = "KeyE" then (yawKey 5 s, [])
  else if code = "Space" then moveE s.up s
  else if code = "ShiftLeft" then moveE ((-1 : ℝ) • s.up) s
  else (s, [])

/-- The whole keydown handler (main.js lines 151-186): the switch, then
unconditionally `updateViewMatrix(); drawScene()` (lines 184-185). -/
def keydown (code : String) (s : CamState) : CamState × List Eff :=
  ((keydownBranch code s).1, (keydownBranch code s).2 ++ [Eff.updateView, Eff.drawScene])

/-- The camera state after a keydown event. -/
def keydownStep (code : String) (s : CamState) : CamState :=
  (keydown code s).1

/-- The mousemove handler (main.js lines 195-204).  With pointer lock
active it sets `yaw = -movementX * 0.002` radians, rotates `forward`
about the up axis by `yaw * 180 / π` degrees and renormalizes; it
mutates nothing else (in particular it never writes `at`). -/
def mousemoveStep (movementX : ℝ) (locked : Bool) (s : CamState) : CamState :=
  if locked then
    { s with forward := (rotateAboutUp (-movementX * 0.002 * 180 / Real.pi) s.forward).normalize }
  else s

/-- Camera states the program can reach: the initial state, closed under
keydown and mousemove events. -/
inductive Reachable : CamState → Prop where
  | init : Reachable initState
  | key (code : String) {s : CamState} : Reachable s → Reachable (keydownStep code s)
  | mouse (movementX : ℝ) (locked : Bool) {s : CamState} :
      Reachable s → Reachable (mousemoveStep movementX locked s)

/-- A camera state satisfying `at = eye + forward` with unit `forward`,
used as a concrete input for the preservation statements. -/
def camS0 : CamState :=
  { eye := ⟨0, 2, -5⟩, forward := ⟨0, 0, 1⟩, up := ⟨0, 1, 0⟩, at' := ⟨0, 2, -4⟩ }

/-- The reachable state after one captured mousemove of one pixel from
the initial state. -/
def mouseS1 : CamState := mousemoveStep 1 true initState

end

/-- The key code strings the keydown switch recognizes
(main.js lines 153-182). -/
def handledCodes : List String :=
  ["KeyW", "KeyS", "KeyA", "KeyD", "KeyQ", "KeyE", "Space", "ShiftLeft"]

/-- The code of the W key. -/
def keyW : String := "KeyW"

/-- The code of the S key. -/
def keyS : String := "KeyS"

/-- The code of the A key. -/
def keyA : String := "KeyA"

/-- The code of the D key. -/
def keyD : String := "KeyD"

/-- The code of the Q key. -/
def keyQ : String := "KeyQ"

/-- The code of the E key. -/
def keyE : String := "KeyE"

/-- The code of the space bar. -/
def keySpace : String := "Space"

/-- The code of the left shift key. -/
def keyShiftLeft : String := "ShiftLeft"

/-- A key code the keydown switch does not recognize. -/
def keyZ : String := "KeyZ"

/-- One draw call of `drawScene`: the sky cube, the ground cube, or a
stacked grid cube whose model matrix is `setTranslate(i, h, j)`
(main.js lines 222-241). -/
inductive DrawCall where
  | sky : DrawCall
  | ground : DrawCall
  | cube (i h j : ℕ) : DrawCall
deriving DecidableEq

/-- The grid part of `drawScene` (main.js lines 233-242): for `i` below
`map.length`, for `j` below `map[0].length`, for `h` below `map[i][j]`,
draw a cube translated to `(i, h, j)`.  An index outside a row reads as
height 0, as the JavaScript comparison with `undefined` runs no loop
iteration. -/
def gridCubes (m : List (List ℕ)) : List DrawCall :=
  (List.range m.length).flatMap fun i =>
    (List.range (m.headD []).length).flatMap fun j =>
      (List.range ((m.getD i []).getD j 0)).map fun h => DrawCall.cube i h j

/-- The full draw sequence of one `drawScene` call (main.js lines
215-243): the sky cube, then the ground cube, then the grid cubes. -/
def drawScene (m : List (List ℕ)) : List DrawCall :=
  DrawCall.sky :: DrawCall.ground :: gridCubes m

/-- Specification-side order of one grid row: left to right from column
`j`, bottom to top within a cell. -/
def rowCubes (i : ℕ) : ℕ → List ℕ → List DrawCall
  | _, [] => []
  | j, hgt :: rest =>
      ((List.range hgt).map fun h => DrawCall.cube i h j) ++ rowCubes i (j + 1) rest

/-- Specification-side row-major order of the whole grid, starting at
row `i`: rows in order, each row left to right, bottom to top in a cell. -/
def rowMajorCubes : ℕ → List (List ℕ) → List DrawCall
  | _, [] => []
  | i, row :: rest => rowCubes i 0 row ++ rowMajorCubes (i + 1) rest

/-- The repository's height grid `map` (main.js lines 207-212). -/
def map : List (List ℕ) :=
  [[1, 0, 2, 0], [3, 0, 0, 1], [1, 0, 1, 1], [4, 0, 0, 2]]

/-- The spec's example height grid `[[1,0],[0,2]]`. -/
def grid22 : List (List ℕ) := [[1, 0], [0, 2]]

/-- One vertex of the `Cube` vertex array: a position and a texture
coordinate, five floats with stride `FSIZE * 5` (main.js lines 62-81).
Rational components suffice for the fixed literals of the array. -/
structure VertexAttrib where
  px : ℚ
  py : ℚ
  pz : ℚ
  u : ℚ
  v : ℚ
deriving DecidableEq

/-- The vertex array every `Cube` uploads (main.js lines 62-67): four
vertices, all on the z = +0.5 plane. -/
def cubeVertices : List VertexAttrib :=
  [⟨-0.5, -0.5, 0.5, 0, 0⟩,
   ⟨0.5, -0.5, 0.5, 1, 0⟩,
   ⟨-0.5, 0.5, 0.5, 0, 1⟩,
   ⟨0.5, 0.5, 0.5, 1, 1⟩]

/-- The primitive mode of the one draw call `Cube.draw` issues. -/
inductive DrawMode where
  | triangleStrip : DrawMode
deriving DecidableEq

/-- A `drawArrays(mode, first, count)` call. -/
structure DrawArrays where
  mode : DrawMode
  first : ℕ
  count : ℕ
deriving DecidableEq

/-- The one draw call of `Cube.draw` (main.js line 88):
`gl.drawArrays(gl.TRIANGLE_STRIP, 0, 4)`. -/
def cubeDraw : DrawArrays := ⟨DrawMode.triangleStrip, 0, 4⟩

@[simp]
theorem Vector3.zero_x : (0 : Vector3).x = 0 := rfl

@[simp]
theorem Vector3.zero_y : (0 : Vector3).y = 0 := rfl

@[simp]
theorem Vector3.zero_z : (0 : Vector3).z = 0 := rfl

@[simp]
theorem Vector3.add_x (a b : Vector3) : (a + b).x = a.x + b.x := rfl

@[simp]
theorem Vector3.add_y (a b : Vector3) : (a + b).y = a.y + b.y := rfl

@[simp]
theorem Vector3.add_z (a b : Vector3) : (a + b).z = a.z + b.z := rfl

@[simp]
theorem Vector3.sub_x (a b : Vector3) : (a - b).x = a.x - b.x := rfl

@[simp]
theorem Vector3.sub_y (a b : Vector3) : (a - b).y = a.y - b.y := rfl

@[simp]
theorem Vector3.sub_z (a b : Vector3) : (a - b).z = a.z - b.z := rfl

@[simp]
theorem Vector3.smul_x (c : ℝ) (v : Vector3) : (c • v).x = c * v.x := rfl

@[simp]
theorem Vector3.smul_y (c : ℝ) (v : Vector3) : (c • v).y = c * v.y := rfl

@[simp]
theorem Vector3.smul_z (c : ℝ) (v : Vector3) : (c • v).z = c * v.z := rfl

theorem Vector3.normSq_nonneg (v : Vector3) : 0 ≤ v.normSq := by
  unfold Vector3.normSq
  positivity

theorem Vector3.norm_nonneg (v : Vector3) : 0 ≤ v.norm :=
  Real.sqrt_nonneg _

theorem Vector3.normSq_eq_zero_iff {v : Vector3} : v.normSq = 0 ↔ v = 0 := by
  constructor
  · intro h
    unfold Vector3.normSq at h
    have hx : v.x = 0 := by nlinarith [sq_nonneg v.x, sq_nonneg v.y, sq_nonneg v.z]
    have hy : v.y = 0 := by nlinarith [sq_nonneg v.x, sq_nonneg v.y, sq_nonneg v.z]
    have hz : v.z = 0 := by nlinarith [sq_nonneg v.x, sq_nonneg v.y, sq_nonneg v.z]
    ext <;> simp [hx, hy, hz]
  · intro h
    subst h
    unfold Vector3.normSq
    simp

theorem Vector3.norm_eq_zero_iff {v : Vector3} : v.norm = 0 ↔ v = 0 := by
  unfold Vector3.norm
  rw [Real.sqrt_eq_zero (Vector3.normSq_nonneg v)]
  exact Vector3.normSq_eq_zero_iff

theorem Vector3.norm_zero : (0 : Vector3).norm = 0 :=
  Vector3.norm_eq_zero_iff.mpr rfl

theorem Vector3.ne_zero_of_norm_one {v : Vector3} (h : v.norm = 1) : v ≠ 0 := by
  intro h0
  rw [h0, Vector3.norm_zero] at h
  exact zero_ne_one h

theorem Vector3.norm_smul (c : ℝ) (v : Vector3) : (c • v).norm = |c| * v.norm := by
  unfold Vector3.norm Vector3.normSq
  have h : (c • v).x ^ 2 + (c • v).y ^ 2 + (c • v).z ^ 2 =
      c ^ 2 * (v.x ^ 2 + v.y ^ 2 + v.z ^ 2) := by
    simp
    ring
  rw [h, Real.sqrt_mul (sq_nonneg c), Real.sqrt_sq_eq_abs]

theorem Vector3.norm_normalize {v : Vector3} (h : v ≠ 0) : v.normalize.norm = 1 := by
  have hn : v.norm ≠ 0 := fun h0 => h (Vector3.norm_eq_zero_iff.mp h0)
  unfold Vector3.normalize
  rw [if_neg hn, Vector3.norm_smul,
    abs_of_nonneg (inv_nonneg.mpr (Vector3.norm_nonneg v)), inv_mul_cancel₀ hn]

theorem Vector3.normalize_of_norm_one {v : Vector3} (h : v.norm = 1) : v.normalize = v := by
  unfold Vector3.normalize
  rw [if_neg (by rw [h]; exact one_ne_zero), h]
  ext <;> simp

theorem Vector3.dot_cross_left (a b : Vector3) : (Vector3.cross a b).dot a = 0 := by
  unfold Vector3.cross Vector3.dot
  dsimp only
  ring

theorem Vector3.dot_cross_right (a b : Vector3) : (Vector3.cross a b).dot b = 0 := by
  unfold Vector3.cross Vector3.dot
  dsimp only
  ring

theorem Vector3.dot_smul_left (c : ℝ) (a b : Vector3) : (c • a).dot b = c * a.dot b := by
  unfold Vector3.dot
  simp
  ring

theorem Vector3.cross_smul_left (c : ℝ) (a b : Vector3) :
    Vector3.cross (c • a) b = c • Vector3.cross a b := by
  unfold Vector3.cross
  ext <;> simp <;> ring

theorem Vector3.normalize_dot {v u : Vector3} (h : v.dot u = 0) : v.normalize.dot u = 0 := by
  unfold Vector3.normalize
  split_ifs
  · unfold Vector3.dot
    simp
  · rw [Vector3.dot_smul_left, h, mul_zero]

theorem rotateAboutUp_normSq (angleDeg : ℝ) (v : Vector3) :
    (rotateAboutUp angleDeg v).normSq = v.normSq := by
  unfold rotateAboutUp Vector3.normSq
  dsimp only
  have h := Real.sin_sq_add_cos_sq (angleDeg * Real.pi / 180)
  linear_combination (v.x ^ 2 + v.z ^ 2) * h

theorem rotateAboutUp_ne_zero {v : Vector3} (h : v ≠ 0) (angleDeg : ℝ) :
    rotateAboutUp angleDeg v ≠ 0 := by
  intro h0
  apply h
  rw [← Vector3.normSq_eq_zero_iff, ← rotateAboutUp_normSq angleDeg]
  rw [← Vector3.normSq_eq_zero_iff] at h0
  exact h0

theorem rotateAboutUp_e3 (angleDeg : ℝ) :
    rotateAboutUp angleDeg ⟨0, 0, 1⟩ =
      ⟨Real.sin (angleDeg * Real.pi / 180), 0, Real.cos (angleDeg * Real.pi / 180)⟩ := by
  unfold rotateAboutUp
  ext <;> dsimp only <;> ring

theorem norm_e3 : (⟨0, 0, 1⟩ : Vector3).norm = 1 := by
  unfold Vector3.norm Vector3.normSq
  dsimp only
  rw [show (0 : ℝ) ^ 2 + 0 ^ 2 + 1 ^ 2 = 1 by norm_num]
  exact Real.sqrt_one

theorem norm_sin_cos (t : ℝ) : (⟨Real.sin t, 0, Real.cos t⟩ : Vector3).norm = 1 := by
  unfold Vector3.norm Vector3.normSq
  dsimp only
  rw [show Real.sin t ^ 2 + 0 ^ 2 + Real.cos t ^ 2 = 1 by
    have h := Real.sin_sq_add_cos_sq t
    nlinarith [h]]
  exact Real.sqrt_one

theorem initState_forward : initState.forward = ⟨0, 0, 1⟩ := by
  unfold initState
  exact Vector3.normalize_of_norm_one norm_e3

theorem keydownStep_keyW (s : CamState) : keydownStep keyW s = move s.forward s := by
  simp [keydownStep, keydown, keydownBranch, moveE, keyW]

theorem keydownStep_keyS (s : CamState) :
    keydownStep keyS s = move ((-2 : ℝ) • s.forward) s := by
  simp [keydownStep, keydown, keydownBranch, moveE, keyS]

theorem keydownStep_keyA (s : CamState) :
    keydownStep keyA s = move ((-1 : ℝ) • strafeRight s) s := by
  simp [keydownStep, keydown, keydownBranch, moveE, keyA]

theorem keydownStep_keyD (s : CamState) : keydownStep keyD s = move (strafeRight s) s := by
  simp [keydownStep, keydown, keydownBranch, moveE, keyD]

theorem keydownStep_keyQ (s : CamState) : keydownStep keyQ s = yawKey (-5) s := by
  simp [keydownStep, keydown, keydownBranch, keyQ]

theorem keydownStep_keyE (s : CamState) : keydownStep keyE s = yawKey 5 s := by
  simp [keydownStep, keydown, keydownBranch, keyE]

theorem keydownStep_keySpace (s : CamState) : keydownStep keySpace s = move s.up s := by
  simp [keydownStep, keydown, keydownBranch, moveE, keySpace]

theorem keydownStep_keyShiftLeft (s : CamState) :
    keydownStep keyShiftLeft s = move ((-1 : ℝ) • s.up) s := by
  simp [keydownStep, keydown, keydownBranch, moveE, keyShiftLeft]

theorem move_forward (dirVec : Vector3) (s : CamState) :
    (move dirVec s).forward = s.forward := rfl

theorem move_up (dirVec : Vector3) (s : CamState) : (move dirVec s).up = s.up := rfl

theorem yawKey_forward (angleDeg : ℝ) (s : CamState) :
    (yawKey angleDeg s).forward = (rotateAboutUp angleDeg s.forward).normalize := rfl

theorem keydownStep_forward_cases (code : String) (s : CamState) :
    (keydownStep code s).forward = s.forward ∨
      (keydownStep code s).forward = (rotateAboutUp (-5) s.forward).normalize ∨
      (keydownStep code s).forward = (rotateAboutUp 5 s.forward).normalize := by
  unfold keydownStep keydown keydownBranch
  split_ifs <;> simp [moveE, move, yawKey]

theorem forward_unit_keydown {s : CamState} (ih : s.forward.norm = 1) (code : String) :
    (keydownStep code s).forward.norm = 1 := by
  have hnz : s.forward ≠ 0 := Vector3.ne_zero_of_norm_one ih
  rcases keydownStep_forward_cases code s with h | h | h <;> rw [h]
  · exact ih
  · exact Vector3.norm_normalize (rotateAboutUp_ne_zero hnz (-5))
  · exact Vector3.norm_normalize (rotateAboutUp_ne_zero hnz 5)

theorem forward_unit_mousemove {s : CamState} (ih : s.forward.norm = 1) (movementX : ℝ)
    (locked : Bool) : (mousemoveStep movementX locked s).forward.norm = 1 := by
  have hnz : s.forward ≠ 0 := Vector3.ne_zero_of_norm_one ih
  unfold mousemoveStep
  split_ifs
  · exact Vector3.norm_normalize (rotateAboutUp_ne_zero hnz _)
  · exact ih

theorem forward_unit_of_reachable {s : CamState} (h : Reachable s) : s.forward.norm = 1 := by
  induction h with
  | init => rw [initState_forward]; exact norm_e3
  | key code _ ih => exact forward_unit_keydown ih code
  | mouse movementX locked _ ih => exact forward_unit_mousemove ih movementX locked

theorem mousemove_eval {s : CamState} (movementX : ℝ) (h : s.forward = ⟨0, 0, 1⟩) :
    mousemoveStep movementX true s =
      { s with forward := ⟨Real.sin (-movementX * 0.002), 0, Real.cos (-movementX * 0.002)⟩ } := by
  have ht : -movementX * 0.002 * 180 / Real.pi * Real.pi / 180 = -movementX * 0.002 := by
    field_simp
    ring
  unfold mousemoveStep
  rw [if_pos rfl, h, rotateAboutUp_e3, ht, Vector3.normalize_of_norm_one (norm_sin_cos _)]

theorem move_sub (dirVec : Vector3) (s : CamState) :
    (move dirVec s).at' - (move dirVec s).eye = s.at' - s.eye := by
  unfold move
  ext <;> simp

theorem move_preserves_at_eq (dirVec : Vector3) {s : CamState}
    (h : s.at' = s.eye + s.forward) :
    (move dirVec s).at' = (move dirVec s).eye + (move dirVec s).forward := by
  unfold move
  dsimp only
  rw [h]
  ext <;> simp <;> ring

theorem yawKey_at_eq (angleDeg : ℝ) (s : CamState) :
    (yawKey angleDeg s).at' = (yawKey angleDeg s).eye + (yawKey angleDeg s).forward := rfl

theorem rotateAboutUp_eq_axis (angleDeg : ℝ) (v : Vector3) :
    rotateAboutUp angleDeg v = rotAboutAxis worldUp (angleDeg * Real.pi / 180) v := by
  unfold rotateAboutUp rotAboutAxis worldUp Vector3.cross Vector3.dot
  ext <;> simp <;> ring

/-- C4: for every movement command (KeyW, KeyS, KeyA, KeyD, Space,
ShiftLeft) the vector at - eye is the same after the command as before
it, since `move` adds the same translation to both `eye` and `at`. -/
theorem movement_preserves_look_vector (s : CamState) :
    ((keydownStep keyW s).at' - (keydownStep keyW s).eye = s.at' - s.eye) ∧
    ((keydownStep keyS s).at' - (keydownStep keyS s).eye = s.at' - s.eye) ∧
    ((keydownStep keyA s).at' - (keydownStep keyA s).eye = s.at' - s.eye) ∧
    ((keydownStep keyD s).at' - (keydownStep keyD s).eye = s.at' - s.eye) ∧
    ((keydownStep keySpace s).at' - (keydownStep keySpace s).eye = s.at' - s.eye) ∧
    ((keydownStep keyShiftLeft s).at' - (keydownStep keyShiftLeft s).eye = s.at' - s.eye) := by
  refine ⟨?_, ?_, ?_, ?_, ?_, ?_⟩
  · rw [keydownStep_keyW]; exact move_sub _ _
  · rw [keydownStep_keyS]; exact move_sub _ _
  · rw [keydownStep_keyA]; exact move_sub _ _
  · rw [keydownStep_keyD]; exact move_sub _ _
  · rw [keydownStep_keySpace]; exact move_sub _ _
  · rw [keydownStep_keyShiftLeft]; exact move_sub _ _

/-- C5: KeyQ rotates `forward` about the world-up axis by -5 degrees and
KeyE by +5 degrees (stated through the axis-angle rotation at the
radian angle ±5·π/180), renormalizes, and recomputes `at` so that
afterwards at = eye + forward; `eye` is untouched. -/
theorem yaw_keys_rotate_about_world_up (s : CamState) :
    (keydownStep keyQ s).eye = s.eye ∧
    (keydownStep keyQ s).forward =
      (rotAboutAxis worldUp ((-5 : ℝ) * Real.pi / 180) s.forward).normalize ∧
    (keydownStep keyQ s).at' = (keydownStep keyQ s).eye + (keydownStep keyQ s).forward ∧
    (keydownStep keyE s).eye = s.eye ∧
    (keydownStep keyE s).forward =
      (rotAboutAxis worldUp ((5 : ℝ) * Real.pi / 180) s.forward).normalize ∧
    (keydownStep keyE s).at' = (keydownStep keyE s).eye + (keydownStep keyE s).forward := by
  rw [keydownStep_keyQ, keydownStep_keyE]
  refine ⟨rfl, ?_, yawKey_at_eq (-5) s, rfl, ?_, yawKey_at_eq 5 s⟩
  · rw [yawKey_forward, rotateAboutUp_eq_axis]
  · rw [yawKey_forward, rotateAboutUp_eq_axis]

/-- C7: `move` translates both `eye` and `at` by the normalization of
its direction scaled by exactly 0.3, for every camera state and every
nonzero direction (in particular the (-2)-scaled KeyS direction), so
the eye displacement always has norm 0.3 and nothing bounds the result. -/
theorem move_translates_fixed_step (s : CamState) (dirVec : Vector3) (h : dirVec ≠ 0) :
    (move dirVec s).eye = s.eye + (0.3 : ℝ) • dirVec.normalize ∧
    (move dirVec s).at' = s.at' + (0.3 : ℝ) • dirVec.normalize ∧
    ((move dirVec s).eye - s.eye).norm = 0.3 := by
  refine ⟨rfl, rfl, ?_⟩
  have hd : (move dirVec s).eye - s.eye = (0.3 : ℝ) • dirVec.normalize := by
    unfold move
    ext <;> simp
  rw [hd, Vector3.norm_smul, Vector3.norm_normalize h, mul_one,
    abs_of_nonneg (by norm_num : (0 : ℝ) ≤ (0.3 : ℝ))]

/-- Witness for C7: the KeyS direction (0,0,-2) (the (-2)-scaled initial
forward) at the initial state. -/
theorem move_translates_fixed_step_witness :
    ((⟨0, 0, -2⟩ : Vector3) ≠ 0) ∧
    ((move ⟨0, 0, -2⟩ initState).eye =
        initState.eye + (0.3 : ℝ) • (⟨0, 0, -2⟩ : Vector3).normalize ∧
      (move ⟨0, 0, -2⟩ initState).at' =
        initState.at' + (0.3 : ℝ) • (⟨0, 0, -2⟩ : Vector3).normalize ∧
      ((move ⟨0, 0, -2⟩ initState).eye - initState.eye).norm = 0.3) := by
  have h : (⟨0, 0, -2⟩ : Vector3) ≠ 0 := by
    intro h0
    have h2 := congrArg Vector3.z h0
    rw [Vector3.zero_z] at h2
    norm_num at h2
  exact ⟨h, move_translates_fixed_step initState ⟨0, 0, -2⟩ h⟩

/-- C8: after every yaw-key rotation and every captured mouse-look event
from a reachable camera state, the norm of `forward` is exactly 1 in
the real-number model (so within any floating-point tolerance). -/
theorem forward_unit_after_rotation {s : CamState} (h : Reachable s) :
    (keydownStep keyQ s).forward.norm = 1 ∧
    (keydownStep keyE s).forward.norm = 1 ∧
    ∀ movementX : ℝ, (mousemoveStep movementX true s).forward.norm = 1 := by
  have hu := forward_unit_of_reachable h
  exact ⟨forward_unit_keydown hu keyQ, forward_unit_keydown hu keyE,
    fun movementX => forward_unit_mousemove hu movementX true⟩

/-- Witness for C8 at the initial state. -/
theorem forward_unit_after_rotation_witness :
    (keydownStep keyQ initState).forward.norm = 1 :=
  (forward_unit_after_rotation Reachable.init).1

/-- C9: a keydown whose code is none of the eight handled ones leaves
the whole camera state unchanged, yet the handler still rebuilds the
view matrix and redraws the scene. -/
theorem unhandled_key_noop_still_redraws (code : String) (s : CamState)
    (h : code ∉ handledCodes) :
    keydown code s = (s, [Eff.updateView, Eff.drawScene]) := by
  simp only [handledCodes, List.mem_cons, List.not_mem_nil, or_false, not_or] at h
  obtain ⟨h1, h2, h3, h4, h5, h6, h7, h8⟩ := h
  unfold keydown keydownBranch
  rw [if_neg h1, if_neg h2, if_neg h3, if_neg h4, if_neg h5, if_neg h6, if_neg h7, if_neg h8]
  rfl

/-- Witness for C9 at the unhandled code KeyZ. -/
theorem unhandled_key_noop_still_redraws_witness :
    keydown keyZ initState = (initState, [Eff.updateView, Eff.drawScene]) :=
  unhandled_key_noop_still_redraws keyZ initState (by decide)

/-- C10: the cube vertex array has exactly 4 vertices whose positions
are the four corners of the z = +0.5 face of the unit cube, and the one
draw call is a triangle strip starting at vertex 0 with count 4, so it
consumes exactly that array and no other face is ever emitted. -/
theorem cube_single_face_only :
    cubeVertices.length = 4 ∧
    cubeVertices.map (fun vtx => (vtx.px, vtx.py, vtx.pz)) =
      [(-0.5, -0.5, 0.5), (0.5, -0.5, 0.5), (-0.5, 0.5, 0.5), (0.5, 0.5, 0.5)] ∧
    (cubeVertices.map VertexAttrib.pz).all (fun zc => zc = 0.5) = true ∧
    cubeDraw = ⟨DrawMode.triangleStrip, 0, 4⟩ ∧
    cubeDraw.first = 0 ∧ cubeDraw.count = cubeVertices.length := by
  refine ⟨rfl, by norm_num [cubeVertices], by norm_num [cubeVertices], rfl, rfl, rfl⟩

theorem rowCubes_range (i : ℕ) (row : List ℕ) : ∀ j0 : ℕ,
    ((List.range row.length).flatMap fun j =>
        (List.range (row.getD j 0)).map fun h => DrawCall.cube i h (j0 + j)) =
      rowCubes i j0 row := by
  induction row with
  | nil =>
      intro j0
      simp [rowCubes]
  | cons hgt rest ih =>
      intro j0
      rw [List.length_cons, List.range_succ_eq_map, List.flatMap_cons, List.flatMap_map]
      have h2 : (fun j => (List.range ((hgt :: rest).getD (Nat.succ j) 0)).map
            fun h => DrawCall.cube i h (j0 + Nat.succ j)) =
          fun j => (List.range (rest.getD j 0)).map fun h => DrawCall.cube i h (j0 + 1 + j) := by
        funext j
        have harith : j0 + (j + 1) = j0 + 1 + j := by omega
        simp only [Nat.succ_eq_add_one, List.getD_cons_succ, harith]
      rw [h2, ih (j0 + 1)]
      have h0 : j0 + 0 = j0 := by omega
      simp only [List.getD_cons_zero, h0]
      rfl

theorem rowCubes_range0 (i : ℕ) (row : List ℕ) :
    ((List.range row.length).flatMap fun j =>
        (List.range (row.getD j 0)).map fun h => DrawCall.cube i h j) =
      rowCubes i 0 row := by
  have h := rowCubes_range i row 0
  simp only [Nat.zero_add] at h
  exact h

theorem gridCubes_rows (W : ℕ) (m : List (List ℕ)) : ∀ i0 : ℕ, (∀ r ∈ m, r.length = W) →
    ((List.range m.length).flatMap fun i =>
        (List.range W).flatMap fun j =>
          (List.range ((m.getD i []).getD j 0)).map fun h => DrawCall.cube (i0 + i) h j) =
      rowMajorCubes i0 m := by
  induction m with
  | nil =>
      intro i0 _
      simp [rowMajorCubes]
  | cons row rest ih =>
      intro i0 hrect
      rw [List.length_cons, List.range_succ_eq_map, List.flatMap_cons, List.flatMap_map]
      have h2 : (fun i => (List.range W).flatMap fun j =>
            (List.range (((row :: rest).getD (Nat.succ i) []).getD j 0)).map
              fun h => DrawCall.cube (i0 + Nat.succ i) h j) =
          fun i => (List.range W).flatMap fun j =>
            (List.range ((rest.getD i []).getD j 0)).map
              fun h => DrawCall.cube (i0 + 1 + i) h j := by
        funext i
        have harith : i0 + (i + 1) = i0 + 1 + i := by omega
        simp only [Nat.succ_eq_add_one, List.getD_cons_succ, harith]
      rw [h2, ih (i0 + 1) fun r hr => hrect r (List.mem_cons_of_mem row hr)]
      have hrow : row.length = W := hrect row (List.mem_cons_self row rest)
      have h0 : i0 + 0 = i0 := by omega
      simp only [List.getD_cons_zero, h0, ← hrow]
      rw [rowCubes_range0 i0 row]
      rfl

theorem gridCubes_eq_rowMajor (m : List (List ℕ))
    (hrect : ∀ r ∈ m, r.length = (m.headD []).length) :
    gridCubes m = rowMajorCubes 0 m := by
  have h := gridCubes_rows (m.headD []).length m 0 hrect
  simp only [Nat.zero_add] at h
  exact h

theorem rowCubes_length (i : ℕ) (row : List ℕ) : ∀ j0 : ℕ,
    (rowCubes i j0 row).length = row.sum := by
  induction row with
  | nil =>
      intro j0
      simp [rowCubes]
  | cons hgt rest ih =>
      intro j0
      simp [rowCubes, ih (j0 + 1)]

theorem rowMajorCubes_length (m : List (List ℕ)) : ∀ i0 : ℕ,
    (rowMajorCubes i0 m).length = (m.map List.sum).sum := by
  induction m with
  | nil =>
      intro i0
      simp [rowMajorCubes]
  | cons row rest ih =>
      intro i0
      simp [rowMajorCubes, rowCubes_length, ih (i0 + 1)]

/-- C3: for every rectangular height grid, one drawScene call emits
exactly one sky draw, then exactly one ground draw, then exactly
sum-of-all-cell-heights stacked-cube draws, with the grid cubes in
row-major order of the grid and bottom-to-top within each cell. -/
theorem drawScene_order_and_count (m : List (List ℕ))
    (hrect : ∀ r ∈ m, r.length = (m.headD []).length) :
    drawScene m = DrawCall.sky :: DrawCall.ground :: rowMajorCubes 0 m ∧
    (gridCubes m).length = (m.map List.sum).sum ∧
    (drawScene m).length = 2 + (m.map List.sum).sum := by
  have h := gridCubes_eq_rowMajor m hrect
  refine ⟨?_, ?_, ?_⟩
  · unfold drawScene
    rw [h]
  · rw [h, rowMajorCubes_length]
  · unfold drawScene
    rw [List.length_cons, List.length_cons, h, rowMajorCubes_length]
    omega

/-- Witness for C3 at the spec's grid [[1,0],[0,2]]: exactly 1 sky then
1 ground then 3 stacked-cube draws, in row-major bottom-to-top order. -/
theorem drawScene_order_and_count_witness :
    (∀ r ∈ grid22, r.length = (grid22.headD []).length) ∧
    (drawScene grid22 = DrawCall.sky :: DrawCall.ground :: rowMajorCubes 0 grid22 ∧
      (gridCubes grid22).length = (grid22.map List.sum).sum ∧
      (drawScene grid22).length = 2 + (grid22.map List.sum).sum) ∧
    drawScene grid22 =
      [DrawCall.sky, DrawCall.ground,
        DrawCall.cube 0 0 0, DrawCall.cube 1 0 1, DrawCall.cube 1 1 1] ∧
    (gridCubes grid22).length = 3 :=
  ⟨by decide, drawScene_order_and_count grid22 (by decide), by decide, by decide⟩

/-- C1 (code bug): with pointer capture active, the mousemove handler
rotates `forward` about world-up by -movementX * 0.002 radians and
renormalizes, but it never recomputes `at` — `at` and `eye` are
unchanged for every state and every movementX — so at the initial
state with movementX = 1 the resulting state violates
at = eye + forward. -/
theorem mousemove_rotates_forward_but_never_updates_at :
    (∀ (s : CamState) (movementX : ℝ),
      (mousemoveStep movementX true s).forward =
        (rotAboutAxis worldUp (-movementX * 0.002) s.forward).normalize ∧
      (mousemoveStep movementX true s).at' = s.at' ∧
      (mousemoveStep movementX true s).eye = s.eye) ∧
    (mousemoveStep 1 true initState).at' ≠
      (mousemoveStep 1 true initState).eye + (mousemoveStep 1 true initState).forward := by
  constructor
  · intro s movementX
    have ht : -movementX * 0.002 * 180 / Real.pi * Real.pi / 180 = -movementX * 0.002 := by
      field_simp
      ring
    refine ⟨?_, rfl, rfl⟩
    unfold mousemoveStep
    rw [if_pos rfl]
    show (rotateAboutUp (-movementX * 0.002 * 180 / Real.pi) s.forward).normalize = _
    rw [rotateAboutUp_eq_axis, ht]
  · intro heq
    rw [mousemove_eval 1 initState_forward] at heq
    have hz : (0 : ℝ) = -5 + Real.cos (-1 * 0.002) := congrArg Vector3.z heq
    have hc := Real.cos_le_one (-1 * 0.002)
    linarith

/-- C2 counterexample: at = eye + forward fails at the very first state
(at - eye there is (0,0,5) while forward is (0,0,1)), and a captured
mousemove does not preserve the relation even from a state where it
holds. -/
theorem camera_invariant_counterexample :
    initState.at' ≠ initState.eye + initState.forward ∧
    camS0.at' = camS0.eye + camS0.forward ∧
    (mousemoveStep 1 true camS0).at' ≠
      (mousemoveStep 1 true camS0).eye + (mousemoveStep 1 true camS0).forward := by
  refine ⟨?_, ?_, ?_⟩
  · intro heq
    rw [initState_forward] at heq
    have hz : (0 : ℝ) = -5 + 1 := congrArg Vector3.z heq
    norm_num at hz
  · ext <;> simp [camS0]
    norm_num
  · intro heq
    rw [mousemove_eval 1 rfl] at heq
    have hx : (0 : ℝ) = 0 + Real.sin (-1 * 0.002) := congrArg Vector3.x heq
    rw [show (-1 : ℝ) * 0.002 = -(0.002 : ℝ) by norm_num, Real.sin_neg] at hx
    have hs : 0 < Real.sin 0.002 :=
      Real.sin_pos_of_pos_of_lt_pi (by norm_num) (by nlinarith [Real.pi_gt_three])
    linarith

/-- C2 amended: the unit-length half of the invariant holds at the
initial state and at every reachable state, and every keydown mutation
preserves at = eye + forward (the yaw keys establish it outright); but
at = eye + forward does not hold at the initial state, where
at - eye = 5 • forward (the same direction, length 5), and mouse-look
does not preserve it since it rotates forward without updating at. -/
theorem camera_invariant_amended :
    initState.forward.norm = 1 ∧
    initState.at' - initState.eye = (5 : ℝ) • initState.forward ∧
    (∀ s : CamState, Reachable s → s.forward.norm = 1) ∧
    (∀ (s : CamState) (code : String), s.at' = s.eye + s.forward →
      (keydownStep code s).at' = (keydownStep code s).eye + (keydownStep code s).forward) ∧
    (∀ s : CamState,
      (keydownStep keyQ s).at' = (keydownStep keyQ s).eye + (keydownStep keyQ s).forward) ∧
    (∀ s : CamState,
      (keydownStep keyE s).at' = (keydownStep keyE s).eye + (keydownStep keyE s).forward) := by
  refine ⟨?_, ?_, ?_, ?_, ?_, ?_⟩
  · rw [initState_forward]
    exact norm_e3
  · rw [initState_forward]
    ext <;> simp [initState]
  · exact fun s h => forward_unit_of_reachable h
  · intro s code h
    unfold keydownStep keydown keydownBranch
    split_ifs
    · exact move_preserves_at_eq s.forward h
    · exact move_preserves_at_eq _ h
    · exact move_preserves_at_eq _ h
    · exact move_preserves_at_eq _ h
    · exact yawKey_at_eq (-5) s
    · exact yawKey_at_eq 5 s
    · exact move_preserves_at_eq s.up h
    · exact move_preserves_at_eq _ h
    · exact h
  · intro s
    rw [keydownStep_keyQ]
    exact yawKey_at_eq (-5) s
  · intro s
    rw [keydownStep_keyE]
    exact yawKey_at_eq 5 s

/-- Witness for C2 amended: the reachability conjunct at the initial
state and the preservation conjunct at the concrete state camS0 under
KeyW. -/
theorem camera_invariant_amended_witness :
    initState.forward.norm = 1 ∧
    (keydownStep keyW camS0).at' = (keydownStep keyW camS0).eye + (keydownStep keyW camS0).forward := by
  refine ⟨camera_invariant_amended.2.2.1 initState Reachable.init, ?_⟩
  exact camera_invariant_amended.2.2.2.1 camS0 keyW (by ext <;> simp [camS0]; norm_num)

/-- C6 amended: the strafing direction `right` is always perpendicular
to `up` and to the actual view direction at - eye, and it is
perpendicular to `forward` whenever at = eye + forward holds; it is not
perpendicular to `forward` at every reachable state, because mouse-look
rotates `forward` without updating `at`. -/
theorem strafe_right_perp (s : CamState) :
    (strafeRight s).dot s.up = 0 ∧
    (strafeRight s).dot (s.at' - s.eye) = 0 ∧
    (s.at' = s.eye + s.forward → (strafeRight s).dot s.forward = 0) := by
  have key : (strafeRight s).dot (s.at' - s.eye) = 0 := by
    apply Vector3.normalize_dot
    show (Vector3.cross ((s.at' - s.eye).normalize) s.up).dot (s.at' - s.eye) = 0
    unfold Vector3.normalize
    split_ifs
    · unfold Vector3.cross Vector3.dot
      simp
    · rw [Vector3.cross_smul_left, Vector3.dot_smul_left, Vector3.dot_cross_left, mul_zero]
  refine ⟨?_, key, ?_⟩
  · exact Vector3.normalize_dot (Vector3.dot_cross_right _ s.up)
  · intro h
    have hw : s.at' - s.eye = s.forward := by
      rw [h]
      ext <;> simp
    rw [← hw]
    exact key

/-- Witness for C6 amended: the perpendicularity to forward at the
concrete state camS0, which satisfies at = eye + forward. -/
theorem strafe_right_perp_witness : (strafeRight camS0).dot camS0.forward = 0 :=
  (strafe_right_perp camS0).2.2 (by ext <;> simp [camS0]; norm_num)

/-- C6 counterexample: at the reachable state one captured mousemove
after the initial state, the strafing direction is (-1,0,0) while
forward is (sin(-0.002), 0, cos(-0.002)), so their dot product is
sin 0.002 > 0.0019 — far outside any 1e-6 tolerance of 0. -/
theorem strafe_perp_counterexample :
    Reachable mouseS1 ∧ (0.0019 : ℝ) < (strafeRight mouseS1).dot mouseS1.forward := by
  constructor
  · exact Reachable.mouse 1 true Reachable.init
  · have hS : mouseS1 =
        { initState with
          forward := ⟨Real.sin (-1 * 0.002), 0, Real.cos (-1 * 0.002)⟩ } :=
      mousemove_eval 1 initState_forward
    have hsub : mouseS1.at' - mouseS1.eye = ⟨0, 0, 5⟩ := by
      rw [hS]
      ext <;> simp [initState]
    have hn5 : (⟨0, 0, 5⟩ : Vector3).norm = 5 := by
      unfold Vector3.norm Vector3.normSq
      dsimp only
      rw [show (0 : ℝ) ^ 2 + 0 ^ 2 + 5 ^ 2 = 5 ^ 2 by norm_num]
      exact Real.sqrt_sq (by norm_num)
    have hnormed : (⟨0, 0, 5⟩ : Vector3).normalize = ⟨0, 0, 1⟩ := by
      unfold Vector3.normalize
      rw [if_neg (by rw [hn5]; norm_num), hn5]
      ext <;> simp
    have hcross : Vector3.cross ⟨0, 0, 1⟩ ⟨0, 1, 0⟩ = ⟨-1, 0, 0⟩ := by
      unfold Vector3.cross
      ext <;> dsimp only <;> norm_num
    have hnm1 : (⟨-1, 0, 0⟩ : Vector3).norm = 1 := by
      unfold Vector3.norm Vector3.normSq
      dsimp only
      rw [show (-1 : ℝ) ^ 2 + 0 ^ 2 + 0 ^ 2 = 1 by norm_num]
      exact Real.sqrt_one
    have hup : mouseS1.up = ⟨0, 1, 0⟩ := by rw [hS]; rfl
    have hright : strafeRight mouseS1 = ⟨-1, 0, 0⟩ := by
      unfold strafeRight
      rw [hsub, hnormed, hup, hcross]
      exact Vector3.normalize_of_norm_one hnm1
    have hfwd : mouseS1.forward = ⟨Real.sin (-1 * 0.002), 0, Real.cos (-1 * 0.002)⟩ := by
      rw [hS]
    have hdot : (strafeRight mouseS1).dot mouseS1.forward = -Real.sin (-1 * 0.002) := by
      rw [hright, hfwd]
      unfold Vector3.dot
      dsimp only
      ring
    rw [hdot, show (-1 : ℝ) * 0.002 = -(0.002 : ℝ) by norm_num, Real.sin_neg, neg_neg]
    have hgt := Real.sin_gt_sub_cube (by norm_num : (0 : ℝ) < 0.002)
      (by norm_num : (0.002 : ℝ) ≤ 1)
    nlinarith [hgt]

end BlockyWorld
